import Mathlib

/-!
Shallow embedding of the discovery (LDS v2) core of the repository:
`pilot/pkg/proxy/envoy/v2/lds.go` (the full streaming implementation) and
the listener-normalization / protocol-value-converter helpers
(`src/unnamed/part_001`).

Go machine integers are modelled as `Int` with explicit wrapping
(`% 2 ^ 64` shifted) where Go arithmetic can overflow; Go slices are
`List`; the per-stream loop of `StreamListeners` is a step function over
the loop's mutable state together with the event the `select` statement
delivered.
-/

namespace IstioV2

/-! ### Protocol value converters (part_001 lines 53-86) -/

/-- Two's-complement wrap of an `Int` into the signed 64-bit range,
modelling Go `int64` overflow. -/
def wrap64 (x : Int) : Int := (x + 2 ^ 63) % 2 ^ 64 - 2 ^ 63

/-- Two's-complement wrap of an `Int` into the signed 32-bit range,
modelling Go's `int32(...)` conversion. -/
def wrap32 (x : Int) : Int := (x + 2 ^ 31) % 2 ^ 32 - 2 ^ 31

/-- `google_protobuf.Duration`: `Seconds` is an `int64` field, `Nanos` an
`int32` field. -/
structure ProtoDuration where
  Seconds : Int
  Nanos : Int
deriving DecidableEq, Repr

/-- `durationToProto` (part_001 lines 73-81): `nanos := d.Nanoseconds();
secs := nanos / 1e9; nanos -= secs * 1e9;` with Go truncated (toward-zero)
`int64` division, returning `{Seconds: secs, Nanos: int32(nanos)}`.
`time.Duration` is an `int64` count of nanoseconds, modelled as an `Int`
in the signed 64-bit range. -/
def durationToProto (d : Int) : ProtoDuration :=
  let nanos := d
  let secs := Int.tdiv nanos 1000000000
  let nanos2 := wrap64 (nanos - wrap64 (secs * 1000000000))
  { Seconds := secs, Nanos := wrap32 nanos2 }

/-- `protoDurationToTimeDuration` (part_001 lines 67-70):
`time.Duration(d.Nanos) + time.Second*time.Duration(d.Seconds)`, i.e.
`d.Nanos + 1e9 * d.Seconds` in wrapping `int64` arithmetic (the widening
of the `int32` field `d.Nanos` to `int64` is exact). -/
def protoDurationToTimeDuration (d : ProtoDuration) : Int :=
  wrap64 (d.Nanos + wrap64 (1000000000 * d.Seconds))

/-- `api.SocketAddress` as produced by `BuildAddress`: an IP string plus a
`uint32` port value. -/
structure SocketAddress where
  address : String
  portValue : Nat
deriving DecidableEq, Repr

/-- `BuildAddress` (part_001 lines 53-65): wraps the given ip and port in
a socket-address descriptor. The `port` parameter is a Go `uint32`;
the reduction `% 2 ^ 32` records that domain. -/
def BuildAddress (ip : String) (port : Nat) : SocketAddress :=
  { address := ip, portValue := port % 2 ^ 32 }

/-! ### Resource normalizer (part_001 lines 29-41) -/

/-- `api.Listener`, reduced to what `normalizeListeners` inspects:
`addressKey` is the byte sequence of `listener.Address.String()` (the
serialized address used as dedup/sort key; Go compares strings byte-wise,
which is lexicographic order on the byte lists), and `payload` stands for
every other field of the listener, which normalization carries through
untouched. -/
structure Listener where
  addressKey : List Nat
  payload : Nat := 0
deriving DecidableEq, Repr

/-- The comparison `out[i].Address.String() < out[j].Address.String()`
used by `sort.Slice`, as a strict order on listeners. -/
def listenerLt (a b : Listener) : Prop := a.addressKey < b.addressKey

/-- The reflexive closure of `listenerLt` along keys: the order realized
by any sorting algorithm driven by the comparison above. -/
def listenerLe (a b : Listener) : Prop := a.addressKey ≤ b.addressKey

instance : DecidableRel listenerLt := fun a b =>
  inferInstanceAs (Decidable (a.addressKey < b.addressKey))

instance : DecidableRel listenerLe := fun a b =>
  inferInstanceAs (Decidable (a.addressKey ≤ b.addressKey))

instance : IsTotal Listener listenerLe :=
  ⟨fun a b => le_total a.addressKey b.addressKey⟩

instance : IsTrans Listener listenerLe :=
  ⟨fun _ _ _ h1 h2 => le_trans h1 h2⟩

instance : IsAntisymm Listener listenerLt :=
  ⟨fun _ _ h1 h2 => absurd h1 (lt_asymm h2)⟩

/-- The first loop of `normalizeListeners` (part_001 lines 33-38): walk
the input, keep a listener only when its serialized address is not in the
`set` of already-seen keys. `seen` models the Go `map[string]bool`. -/
def dedupLoop : List Listener → List (List Nat) → List Listener
  | [], _ => []
  | l :: ls, seen =>
    if l.addressKey ∈ seen then dedupLoop ls seen
    else l :: dedupLoop ls (l.addressKey :: seen)

/-- `normalizeListeners` (part_001 lines 30-41): dedup by serialized
address (first occurrence wins), then sort by serialized address
ascending. The Go code sorts with `sort.Slice` (not guaranteed stable),
but the deduplicated list has pairwise-distinct keys, so every comparison
sort computes the same result; insertion sort realizes it. -/
def normalizeListeners (listeners : List Listener) : List Listener :=
  List.insertionSort listenerLe (dedupLoop listeners [])

/-- Statement of the spec's normalizer clause, written from its words:
discard each listener whose address key has already occurred earlier in
the list (first occurrence wins). Keeping a listener removes every later
listener with the same key. -/
def specDiscardSeen : List Listener → List Listener
  | [] => []
  | l :: ls =>
    l :: specDiscardSeen (ls.filter (fun x => decide (x.addressKey ≠ l.addressKey)))
termination_by l => l.length
decreasing_by
  simp only [List.length_cons]
  have := List.length_filter_le (fun x => decide (x.addressKey ≠ l.addressKey)) ls
  omega

/-! ### Node identity resolver

`model.ParseServiceNode` lives in `pilot/pkg/model`, which is not among
the provided source files; only its caller `FetchListeners` is. -/

/-- A parsed service-node identity (`model.Proxy`): node type, IP
address, unique id and domain. -/
structure NodeIdentity where
  nodeType : String
  ipAddress : String
  id : String
  domain : String
deriving DecidableEq, Repr

/-- Splitting a character sequence at `~` delimiters (the structural
counterpart of splitting the id string on `~`). Never returns `[]`. -/
def splitOnTilde : List Char → List (List Char)
  | [] => [[]]
  | c :: rest =>
    match splitOnTilde rest with
    | [] => []
    | w :: ws => if c = '~' then [] :: w :: ws else (c :: w) :: ws

/-- Modelled from the spec: `model.ParseServiceNode`, the Node Identity
Resolver, whose source is not included. Per the spec it parses "a small
positional/delimited grammar carrying at minimum a role/prefix, cluster,
node id and IP components" (the spec's example id is
`sidecar~10.0.0.5~svc.ns~ns.svc.cluster.local`, a tilde-delimited
quadruple led by a known role), it is deterministic and total, and
"malformed input fails with a descriptive parse error and never throws
away the original string". -/
def ParseServiceNode (s : String) : Except String NodeIdentity :=
  match (splitOnTilde s.data).map List.asString with
  | [role, ip, nodeId, domain] =>
    if role = "sidecar" || role = "ingress" || role = "router" then
      .ok { nodeType := role, ipAddress := ip, id := nodeId, domain := domain }
    else
      .error ("missing service node type in the service node " ++ s)
  | _ => .error ("missing parts in the service node " ++ s)

instance : DecidableEq (Except String NodeIdentity) := fun a b =>
  match a, b with
  | .ok x, .ok y =>
    if h : x = y then .isTrue (by rw [h]) else .isFalse (by simp [h])
  | .error x, .error y =>
    if h : x = y then .isTrue (by rw [h]) else .isFalse (by simp [h])
  | .ok _, .error _ => .isFalse (by simp)
  | .error _, .ok _ => .isFalse (by simp)

/-! ### Discovery session (lds.go lines 70-134, full variant) -/

/-- `xdsapi.DiscoveryRequest`, the fields the LDS code reads. `nodeId`
models `in.Node.Id`; `responseNonce` and `versionInfo` are read only by
a debug log; `errorDetail` distinguishes a NACK. -/
structure DiscoveryRequest where
  nodeId : String := ""
  versionInfo : String := ""
  responseNonce : String := ""
  errorDetail : Option String := none
deriving DecidableEq, Repr

/-- `xdsapi.DiscoveryResponse`, the fields relevant to the claims. The
streaming code sends `&xdsapi.DiscoveryResponse{}`, whose Go zero value
is the default value of this structure. -/
structure DiscoveryResponse where
  versionInfo : String := ""
  nonce : String := ""
  resources : List (List Nat) := []
deriving DecidableEq, Repr

/-- An error coming out of the transport (`stream.Recv` / `stream.Send`):
the gRPC status code of the error, whether it is `io.EOF`, and its
rendered message. -/
structure TransportError where
  code : Nat
  isEOF : Bool
  msg : String
deriving DecidableEq, Repr

/-- `codes.Canceled` in gRPC. -/
def grpcCanceled : Nat := 1

/-- What the receive goroutine (lds.go lines 82-96) does when
`stream.Recv` returns an error: on `codes.Canceled` or `io.EOF` it
returns silently (leaving `receiveError` nil, no diagnostic); otherwise
it records the error into `receiveError` and logs
`request loop for LDS for client %q terminated with errors %v` with the
peer address, then returns. Either way it closes `reqChannel` (by the
deferred close). Result: the recorded `receiveError` and the optional
diagnostic line. -/
def recvLoopTerminate (peerAddr : String) (e : TransportError) :
    Option TransportError × Option String :=
  if e.code = grpcCanceled ∨ e.isEOF = true then (none, none)
  else
    (some e,
     some ("request loop for LDS for client \x22" ++ peerAddr
        ++ "\x22 terminated with errors " ++ e.msg))

/-- One event delivered to the `select` statement of the main loop
(lds.go lines 97-113): a request handed over on `reqChannel`, the closing
of `reqChannel` (carrying the `receiveError` the receive goroutine
recorded before closing), or a ticker tick. Events that can lead the
loop to call `stream.Send` carry the transport's disposition for that
send (`none` = success). -/
inductive StreamEvent where
  | req (r : DiscoveryRequest) (sendRes : Option TransportError)
  | chanClosed (recorded : Option TransportError)
  | tick (sendRes : Option TransportError)
deriving DecidableEq, Repr

/-- Outcome of one iteration of the main loop: either the loop continues
with a new value of `initialRequest` or `StreamListeners` returns. Both
carry the responses handed to `stream.Send` during the iteration. -/
inductive StepResult where
  | next (initialRequest : Bool) (sent : List DiscoveryResponse)
  | ret (e : Option TransportError) (sent : List DiscoveryResponse)
deriving DecidableEq, Repr

/-- The code shared by both fall-through paths of the `select` (lds.go
lines 114-124), reached only while `initialRequest` is true: clear
`initialRequest`, build `response := &xdsapi.DiscoveryResponse{}`, send
it; a send error makes `StreamListeners` return that error. -/
def afterSelect (initialRequest : Bool) (sendRes : Option TransportError) :
    StepResult :=
  let ir := if initialRequest then false else initialRequest
  let response : DiscoveryResponse := {}
  match sendRes with
  | some e => .ret (some e) [response]
  | none => .next ir [response]

/-- One iteration of the main loop of `StreamListeners` (lds.go lines
97-124), as a function of the loop's only mutable state
(`initialRequest`; true models the `AwaitingInitial` session state,
false `Active`) and the event the `select` delivered.

- `reqChannel` closed: `return receiveError`.
- request received while `Active` (`!initialRequest`): log and
  `continue` — no send, no state change, for ACK, NACK and stale
  requests alike (the code never looks at the nonce or error detail
  beyond logging).
- tick: the guard `if !initialRequest { continue }` skips the send only
  when the initial request HAS already been processed; while
  `AwaitingInitial` the tick falls through to `afterSelect`.
- request received while `AwaitingInitial`: falls through to
  `afterSelect`. Note nothing parses `r.nodeId` on this path. -/
def stepStream (initialRequest : Bool) : StreamEvent → StepResult
  | .chanClosed recorded => .ret recorded []
  | .req _ sendRes =>
    if !initialRequest then .next initialRequest []
    else afterSelect initialRequest sendRes
  | .tick sendRes =>
    if !initialRequest then .next initialRequest []
    else afterSelect initialRequest sendRes

/-- Run of the main loop over a finite schedule of events: threads the
`initialRequest` state through `stepStream`, stopping at the first
iteration that returns. Yields `some e` when the loop returned (`e` the
Go error value, `none` being a nil error) and `none` when the schedule
ran out with the loop still live, together with all responses handed to
`stream.Send` in order. -/
def runStream (initialRequest : Bool) :
    List StreamEvent → Option (Option TransportError) × List DiscoveryResponse
  | [] => (none, [])
  | ev :: evs =>
    match stepStream initialRequest ev with
    | .next ir sent =>
      let rest := runStream ir evs
      (rest.1, sent ++ rest.2)
    | .ret e sent => (some e, sent)

/-- `FetchListeners` (lds.go lines 127-134) as the Go result pair
`(*xdsapi.DiscoveryResponse, error)`: parse `in.Node.Id`; on parse
failure return `(nil, err)`; otherwise log and return
`(nil, errors.New("FetchListeners not implemented"))`. -/
def FetchListeners (req : DiscoveryRequest) :
    Option DiscoveryResponse × Option String :=
  match ParseServiceNode req.nodeId with
  | .error e => (none, some e)
  | .ok _ => (none, some "FetchListeners not implemented")

/-! ### Lemmas about the normalizer -/

theorem dedupLoop_keys (xs : List Listener) (seen : List (List Nat)) :
    ((dedupLoop xs seen).map Listener.addressKey).Nodup
    ∧ ∀ l ∈ dedupLoop xs seen, l.addressKey ∉ seen := by
  induction xs generalizing seen with
  | nil => simp [dedupLoop]
  | cons a as ih =>
    by_cases h : a.addressKey ∈ seen
    · simpa [dedupLoop, h] using ih seen
    · have ih2 := ih (a.addressKey :: seen)
      simp only [dedupLoop, h, if_false, List.map_cons, List.nodup_cons]
      refine ⟨⟨?_, ih2.1⟩, ?_⟩
      · intro hmem
        rcases List.mem_map.mp hmem with ⟨b, hb, hkey⟩
        exact (ih2.2 b hb) (by simp [hkey])
      · intro l hl
        rcases List.mem_cons.mp hl with rfl | hl
        · exact h
        · have := ih2.2 l hl
          intro hbad
          exact this (List.mem_cons_of_mem _ hbad)

theorem dedupLoop_eq_self (xs : List Listener) (seen : List (List Nat))
    (hn : (xs.map Listener.addressKey).Nodup)
    (hd : ∀ l ∈ xs, l.addressKey ∉ seen) :
    dedupLoop xs seen = xs := by
  induction xs generalizing seen with
  | nil => simp [dedupLoop]
  | cons a as ih =>
    simp only [List.map_cons, List.nodup_cons] at hn
    have ha : a.addressKey ∉ seen := hd a (List.mem_cons_self a as)
    simp only [dedupLoop, ha, if_false]
    congr 1
    refine ih (a.addressKey :: seen) hn.2 ?_
    intro l hl
    intro hbad
    rcases List.mem_cons.mp hbad with hkey | hkey
    · exact hn.1 (List.mem_map.mpr ⟨l, hl, hkey⟩)
    · exact hd l (List.mem_cons_of_mem _ hl) hkey

theorem dedupLoop_eq_specDiscardSeen (xs : List Listener)
    (seen : List (List Nat)) :
    dedupLoop xs seen
      = specDiscardSeen
          (xs.filter (fun x => decide (x.addressKey ∉ seen))) := by
  induction xs generalizing seen with
  | nil => simp [dedupLoop, specDiscardSeen]
  | cons a as ih =>
    by_cases h : a.addressKey ∈ seen
    · rw [dedupLoop, if_pos h, List.filter_cons_of_neg (by simp [h]), ih seen]
    · rw [dedupLoop, if_neg h, List.filter_cons_of_pos (by simp [h])]
      simp only [specDiscardSeen]
      congr 1
      rw [ih (a.addressKey :: seen)]
      congr 1
      rw [List.filter_filter]
      apply List.filter_congr
      intro x _
      by_cases h1 : x.addressKey = a.addressKey <;>
        by_cases h2 : x.addressKey ∈ seen <;> simp [h1, h2]

theorem normalizeListeners_perm_dedup (xs : List Listener) :
    (normalizeListeners xs).Perm (dedupLoop xs []) :=
  List.perm_insertionSort listenerLe (dedupLoop xs [])

theorem normalizeListeners_sorted (xs : List Listener) :
    List.Sorted listenerLe (normalizeListeners xs) :=
  List.sorted_insertionSort listenerLe (dedupLoop xs [])

theorem normalizeListeners_keys_nodup (xs : List Listener) :
    ((normalizeListeners xs).map Listener.addressKey).Nodup :=
  ((normalizeListeners_perm_dedup xs).map Listener.addressKey).nodup_iff.mpr
    (dedupLoop_keys xs []).1

theorem pairwise_lt_of_sorted_nodup (l : List Listener)
    (hs : List.Pairwise listenerLe l)
    (hn : (l.map Listener.addressKey).Nodup) :
    List.Pairwise listenerLt l := by
  induction l with
  | nil => exact List.Pairwise.nil
  | cons a as ih =>
    simp only [List.map_cons, List.nodup_cons] at hn
    rcases List.pairwise_cons.mp hs with ⟨hrel, htail⟩
    refine List.pairwise_cons.mpr ⟨?_, ih htail hn.2⟩
    intro b hb
    have hne : a.addressKey ≠ b.addressKey := by
      intro hkey
      exact hn.1 (List.mem_map.mpr ⟨b, hb, hkey.symm⟩)
    exact lt_of_le_of_ne (hrel b hb) hne

theorem normalizeListeners_pairwise_lt (xs : List Listener) :
    List.Pairwise listenerLt (normalizeListeners xs) :=
  pairwise_lt_of_sorted_nodup _ (normalizeListeners_sorted xs)
    (normalizeListeners_keys_nodup xs)

theorem normalizeListeners_eq_spec_sort (xs : List Listener) :
    normalizeListeners xs
      = List.insertionSort listenerLe (specDiscardSeen xs) := by
  rw [normalizeListeners, dedupLoop_eq_specDiscardSeen]
  congr 2
  simp

theorem normalizeListeners_perm_invariant (xs ys : List Listener)
    (hp : xs.Perm ys) (hn : (xs.map Listener.addressKey).Nodup) :
    normalizeListeners xs = normalizeListeners ys := by
  have hny : (ys.map Listener.addressKey).Nodup :=
    ((hp.map Listener.addressKey).nodup_iff).mp hn
  have hx : dedupLoop xs [] = xs := dedupLoop_eq_self xs [] hn (by simp)
  have hy : dedupLoop ys [] = ys := dedupLoop_eq_self ys [] hny (by simp)
  refine List.eq_of_perm_of_sorted (r := listenerLt) ?_
    (normalizeListeners_pairwise_lt xs) (normalizeListeners_pairwise_lt ys)
  have h1 := normalizeListeners_perm_dedup xs
  have h2 := normalizeListeners_perm_dedup ys
  rw [hx] at h1
  rw [hy] at h2
  exact h1.trans (hp.trans h2.symm)

/-! ### Lemmas about the stream loop -/

theorem runStream_active_no_sends (evs : List StreamEvent) :
    (runStream false evs).2 = [] := by
  induction evs with
  | nil => rfl
  | cons ev evs ih =>
    cases ev with
    | chanClosed rec => simp [runStream, stepStream]
    | req r s => simpa [runStream, stepStream] using ih
    | tick s => simpa [runStream, stepStream] using ih

theorem runStream_nonce_empty (ir : Bool) (evs : List StreamEvent) :
    ((runStream ir evs).2.all (fun resp => resp.nonce == "")) = true := by
  induction evs generalizing ir with
  | nil => rfl
  | cons ev evs ih =>
    cases ev with
    | chanClosed rec => simp [runStream, stepStream]
    | req r sendRes =>
      cases ir with
      | false => simpa [runStream, stepStream] using ih false
      | true =>
        cases sendRes with
        | none => simpa [runStream, stepStream, afterSelect] using ih false
        | some e => simp [runStream, stepStream, afterSelect]
    | tick sendRes =>
      cases ir with
      | false => simpa [runStream, stepStream] using ih false
      | true =>
        cases sendRes with
        | none => simpa [runStream, stepStream, afterSelect] using ih false
        | some e => simp [runStream, stepStream, afterSelect]

theorem runStream_sends_at_most_one (ir : Bool) (evs : List StreamEvent) :
    (runStream ir evs).2.length ≤ 1 := by
  cases ir with
  | false => simp [runStream_active_no_sends]
  | true =>
    cases evs with
    | nil => simp [runStream]
    | cons ev evs =>
      cases ev with
      | chanClosed rec => simp [runStream, stepStream]
      | req r sendRes =>
        cases sendRes with
        | none =>
          simp [runStream, stepStream, afterSelect, runStream_active_no_sends]
        | some e => simp [runStream, stepStream, afterSelect]
      | tick sendRes =>
        cases sendRes with
        | none =>
          simp [runStream, stepStream, afterSelect, runStream_active_no_sends]
        | some e => simp [runStream, stepStream, afterSelect]

theorem tmod_neg_dividend (a b : Int) : Int.tmod (-a) b = -(Int.tmod a b) := by
  rw [Int.tmod_def, Int.tmod_def, Int.neg_tdiv]
  ring

/-- C5: converting an internal duration (any value of Go's `int64`
nanosecond type `time.Duration`) to the wire representation and back is
the identity: `protoDurationToTimeDuration (durationToProto d) = d`. -/
theorem claim_C5 (d : Int) (h1 : -2 ^ 63 ≤ d) (h2 : d < 2 ^ 63) :
    protoDurationToTimeDuration (durationToProto d) = d := by
  have hq := Int.tdiv_add_tmod d 1000000000
  have hub := Int.tmod_lt_of_pos d (b := 1000000000) (by norm_num)
  simp only [protoDurationToTimeDuration, durationToProto, wrap64, wrap32]
  rcases le_or_lt 0 d with hd | hd
  · have hs := Int.tmod_nonneg (a := d) 1000000000 hd
    omega
  · have hs : Int.tmod (-d) 1000000000 = -(Int.tmod d 1000000000) :=
      tmod_neg_dividend d 1000000000
    have hs2 := Int.tmod_nonneg (a := -d) 1000000000 (by omega)
    have hub2 := Int.tmod_lt_of_pos (-d) (b := 1000000000) (by norm_num)
    omega

/-- Witness for C5 at concrete durations, one positive and one negative,
both with a nonzero sub-second remainder. -/
theorem claim_C5_witness :
    protoDurationToTimeDuration (durationToProto 1500000001) = 1500000001
    ∧ protoDurationToTimeDuration (durationToProto (-2500000007))
        = -2500000007 :=
  ⟨claim_C5 1500000001 (by norm_num) (by norm_num),
   claim_C5 (-2500000007) (by norm_num) (by norm_num)⟩

/-- C1: `normalizeListeners` equals "discard every listener whose address
key occurred earlier (first occurrence wins), then sort the survivors by
key ascending" (the spec-worded form `specDiscardSeen` followed by the
sort); its output is sorted ascending by key with pairwise-distinct keys
(strictly ascending), and any two permuted inputs with pairwise-distinct
keys normalize to the same output. -/
theorem claim_C1 (xs ys : List Listener) :
    normalizeListeners xs
        = List.insertionSort listenerLe (specDiscardSeen xs)
    ∧ List.Sorted listenerLe (normalizeListeners xs)
    ∧ ((normalizeListeners xs).map Listener.addressKey).Nodup
    ∧ List.Pairwise listenerLt (normalizeListeners xs)
    ∧ (xs.Perm ys → (xs.map Listener.addressKey).Nodup →
        normalizeListeners xs = normalizeListeners ys) :=
  ⟨normalizeListeners_eq_spec_sort xs, normalizeListeners_sorted xs,
   normalizeListeners_keys_nodup xs, normalizeListeners_pairwise_lt xs,
   fun hp hn => normalizeListeners_perm_invariant xs ys hp hn⟩

/-- Witness for C1: two concrete two-listener inputs that are
permutations of each other with distinct keys (byte keys `[53]` and
`[50]`, i.e. `"5"` and `"2"`) normalize to the same sorted output. -/
theorem claim_C1_witness :
    normalizeListeners [⟨[53], 0⟩, ⟨[50], 1⟩]
        = List.insertionSort listenerLe
            (specDiscardSeen [⟨[53], 0⟩, ⟨[50], 1⟩])
    ∧ normalizeListeners [⟨[53], 0⟩, ⟨[50], 1⟩]
        = normalizeListeners [⟨[50], 1⟩, ⟨[53], 0⟩]
    ∧ normalizeListeners [⟨[53], 0⟩, ⟨[50], 1⟩] = [⟨[50], 1⟩, ⟨[53], 0⟩] :=
  ⟨(claim_C1 [⟨[53], 0⟩, ⟨[50], 1⟩] []).1,
   (claim_C1 [⟨[53], 0⟩, ⟨[50], 1⟩] [⟨[50], 1⟩, ⟨[53], 0⟩]).2.2.2.2
     (by decide) (by decide),
   by decide⟩

/-- C10: `normalizeListeners` is idempotent. -/
theorem claim_C10 (xs : List Listener) :
    normalizeListeners (normalizeListeners xs) = normalizeListeners xs := by
  have hn := normalizeListeners_keys_nodup xs
  have h1 : dedupLoop (normalizeListeners xs) [] = normalizeListeners xs :=
    dedupLoop_eq_self _ _ hn (by simp)
  rw [normalizeListeners, h1,
    (normalizeListeners_sorted xs).insertionSort_eq]

/-- C2 (code bug): a ticker tick delivered while the session is still
`AwaitingInitial` (`initialRequest = true`) is NOT a no-op. The guard
`if !initialRequest { continue }` (lds.go line 109) skips ticks only
AFTER the first request was processed — the inverse of its own comment
"Ignore ticker events until the very first request is processed" — so a
tick before any request falls through, flips `initialRequest` to false
and sends one (empty) response. -/
theorem claim_C2_code_behavior :
    stepStream true (.tick none)
      = .next false [{ versionInfo := "", nonce := "", resources := [] }]
    := rfl

/-- C6: in `Active` (`initialRequest = false`) every inbound request —
pure ACK, NACK or stale alike (the code reads the request only to log
it) — produces zero outbound messages and leaves the loop state
unchanged. -/
theorem claim_C6 (r : DiscoveryRequest) (sendRes : Option TransportError) :
    stepStream false (.req r sendRes) = .next false [] := rfl

/-- C4 (code bug): the outbound response is always the zero-valued
`DiscoveryResponse` — its nonce is the empty string, never freshly
generated — and a stream sends at most one response (only the
initial-request fall-through sends). Concretely: a session processing
the first request and then a further request and a tick emits exactly
one response, whose nonce is `""`; in general every response any run
sends has the empty nonce and no run sends more than one response. -/
theorem claim_C4_code_behavior :
    runStream true
      [.req {} none, .req { responseNonce := "" } none, .tick none]
      = (none, [{ versionInfo := "", nonce := "", resources := [] }])
    ∧ (∀ (ir : Bool) (evs : List StreamEvent),
        ((runStream ir evs).2.all (fun resp => resp.nonce == "")) = true)
    ∧ (∀ (ir : Bool) (evs : List StreamEvent),
        (runStream ir evs).2.length ≤ 1) :=
  ⟨rfl, runStream_nonce_empty, runStream_sends_at_most_one⟩

/-- C7: when the receive side of a stream terminates with error `e`, the
main loop returns the error the receive goroutine recorded:
nothing (nil) when `e` is gRPC-`Canceled` or `io.EOF`, and `e` itself
otherwise, in which case a diagnostic naming the peer address was
logged. -/
theorem claim_C7 (p : String) (e : TransportError) (ir : Bool) :
    stepStream ir (.chanClosed (recvLoopTerminate p e).1)
        = .ret (recvLoopTerminate p e).1 []
    ∧ ((e.code = grpcCanceled ∨ e.isEOF = true) →
        recvLoopTerminate p e = (none, none))
    ∧ (¬(e.code = grpcCanceled ∨ e.isEOF = true) →
        (recvLoopTerminate p e).1 = some e
        ∧ ∃ a b, (recvLoopTerminate p e).2 = some (a ++ p ++ b)) := by
  refine ⟨rfl, ?_, ?_⟩
  · intro h
    simp [recvLoopTerminate, h]
  · intro h
    refine ⟨by simp [recvLoopTerminate, h], ?_⟩
    refine ⟨"request loop for LDS for client \x22",
      "\x22 terminated with errors " ++ e.msg, ?_⟩
    simp [recvLoopTerminate, h, String.append_assoc]

/-- Witness for C7: a benign `Canceled` termination returns nil, and a
non-benign error (gRPC code 13) is returned with a diagnostic that
contains the peer address. -/
theorem claim_C7_witness :
    recvLoopTerminate "1.2.3.4:5678" { code := 1, isEOF := false, msg := "ctx" }
        = (none, none)
    ∧ (recvLoopTerminate "1.2.3.4:5678"
        { code := 13, isEOF := false, msg := "reset" }).1
        = some { code := 13, isEOF := false, msg := "reset" }
    ∧ ∃ a b, (recvLoopTerminate "1.2.3.4:5678"
        { code := 13, isEOF := false, msg := "reset" }).2
        = some (a ++ "1.2.3.4:5678" ++ b) :=
  ⟨(claim_C7 "1.2.3.4:5678" { code := 1, isEOF := false, msg := "ctx" }
      true).2.1 (by decide),
   ((claim_C7 "1.2.3.4:5678" { code := 13, isEOF := false, msg := "reset" }
      true).2.2 (by decide)).1,
   ((claim_C7 "1.2.3.4:5678" { code := 13, isEOF := false, msg := "reset" }
      true).2.2 (by decide)).2⟩

/-- C3 counterexample: the streaming path performs no identity
resolution. A first request with `node_id = "garbage"` (which the
resolver rejects) does not end the session with an error — the session
transitions to `Active` and sends a response. -/
theorem claim_C3_counterexample :
    stepStream true (.req { nodeId := "garbage" } none)
        = .next false [{ versionInfo := "", nonce := "", resources := [] }]
    ∧ ParseServiceNode "garbage"
        = .error "missing parts in the service node garbage" :=
  ⟨rfl, by decide⟩

/-- C3 (amended): identity resolution of a malformed node id fails on
the FETCH path only: `FetchListeners` returns no response and exactly
the identity-parse error. The streaming path never resolves the
identity (see the counterexample). -/
theorem claim_C3_amended (s e : String)
    (h : ParseServiceNode s = .error e) :
    FetchListeners { nodeId := s } = (none, some e) := by
  simp [FetchListeners, h]

/-- Witness for C3 at the spec's malformed id `"garbage"`. -/
theorem claim_C3_witness :
    FetchListeners { nodeId := "garbage" }
      = (none, some "missing parts in the service node garbage") :=
  claim_C3_amended "garbage" "missing parts in the service node garbage"
    (by decide)

/-- C8 counterexample: with the spec's well-formed example identity
(which parses successfully), the fetch path does not return an empty
non-nil resource set — it returns no response and the error
`FetchListeners not implemented`. -/
theorem claim_C8_counterexample :
    FetchListeners
        { nodeId := "sidecar~10.0.0.5~svc.ns~ns.svc.cluster.local" }
        = (none, some "FetchListeners not implemented")
    ∧ ParseServiceNode "sidecar~10.0.0.5~svc.ns~ns.svc.cluster.local"
        = .ok { nodeType := "sidecar", ipAddress := "10.0.0.5",
                id := "svc.ns", domain := "ns.svc.cluster.local" } :=
  ⟨by decide, by decide⟩

/-- C8 (amended): for every node id that parses successfully — in
particular one resolving to zero logical configuration objects — the
fetch path returns no resource set and the error
`FetchListeners not implemented`. -/
theorem claim_C8_amended (s : String) (n : NodeIdentity)
    (h : ParseServiceNode s = .ok n) :
    FetchListeners { nodeId := s }
      = (none, some "FetchListeners not implemented") := by
  simp [FetchListeners, h]

/-- Witness for C8 at the spec's example identity. -/
theorem claim_C8_witness :
    FetchListeners
        { nodeId := "sidecar~10.0.0.5~svc.ns~ns.svc.cluster.local" }
      = (none, some "FetchListeners not implemented") :=
  claim_C8_amended "sidecar~10.0.0.5~svc.ns~ns.svc.cluster.local"
    { nodeType := "sidecar", ipAddress := "10.0.0.5",
      id := "svc.ns", domain := "ns.svc.cluster.local" } (by decide)

/-- C9 counterexample: the duration conversion has no error path and
silently wraps on out-of-range input: the wire value
`Seconds = 2 ^ 62, Nanos = 0` denotes `2 ^ 62 * 1e9` nanoseconds, far
outside the int64 range, yet `protoDurationToTimeDuration` returns the
wrapped value `0` instead of a conversion error. -/
theorem claim_C9_counterexample :
    protoDurationToTimeDuration { Seconds := 2 ^ 62, Nanos := 0 } = 0
    ∧ (2 ^ 62 : Int) * 1000000000 ≠ 0 := by
  refine ⟨?_, by norm_num⟩
  simp only [protoDurationToTimeDuration, wrap64]
  norm_num

/-- C9 (amended): the converters never panic — they are total functions
whose results always lie in the ranges of their Go types (`int64` for
durations, `int64`/`int32` for the proto fields, `uint32` for ports) —
but out-of-range wire input silently wraps instead of producing a
conversion error (see the counterexample). -/
theorem claim_C9_amended (d : ProtoDuration) (n : Int) (ip : String)
    (port : Nat) (h1 : -2 ^ 63 ≤ n) (h2 : n < 2 ^ 63) :
    (-2 ^ 63 ≤ protoDurationToTimeDuration d
      ∧ protoDurationToTimeDuration d < 2 ^ 63)
    ∧ (-2 ^ 63 ≤ (durationToProto n).Seconds
      ∧ (durationToProto n).Seconds < 2 ^ 63
      ∧ -2 ^ 31 ≤ (durationToProto n).Nanos
      ∧ (durationToProto n).Nanos < 2 ^ 31)
    ∧ (BuildAddress ip port).portValue < 2 ^ 32 := by
  refine ⟨?_, ?_, ?_⟩
  · simp only [protoDurationToTimeDuration, wrap64]
    omega
  · have hq := Int.tdiv_add_tmod n 1000000000
    have hub := Int.tmod_lt_of_pos n (b := 1000000000) (by norm_num)
    simp only [durationToProto, wrap64, wrap32]
    rcases le_or_lt 0 n with hn | hn
    · have hs := Int.tmod_nonneg (a := n) 1000000000 hn
      omega
    · have hs : Int.tmod (-n) 1000000000 = -(Int.tmod n 1000000000) :=
        tmod_neg_dividend n 1000000000
      have hs2 := Int.tmod_nonneg (a := -n) 1000000000 (by omega)
      have hub2 := Int.tmod_lt_of_pos (-n) (b := 1000000000) (by norm_num)
      omega
  · simp only [BuildAddress]
    omega

/-- Witness for C9 (amended) at the counterexample's wire value and a
small in-range duration. -/
theorem claim_C9_amended_witness :
    (-2 ^ 63 ≤ protoDurationToTimeDuration { Seconds := 2 ^ 62, Nanos := 0 }
      ∧ protoDurationToTimeDuration { Seconds := 2 ^ 62, Nanos := 0 } < 2 ^ 63)
    ∧ (-2 ^ 63 ≤ (durationToProto 5000000123).Seconds
      ∧ (durationToProto 5000000123).Seconds < 2 ^ 63
      ∧ -2 ^ 31 ≤ (durationToProto 5000000123).Nanos
      ∧ (durationToProto 5000000123).Nanos < 2 ^ 31)
    ∧ (BuildAddress "10.0.0.5" 80).portValue < 2 ^ 32 := by
  have h := claim_C9_amended { Seconds := 2 ^ 62, Nanos := 0 } 5000000123
    "10.0.0.5" 80 (by norm_num) (by norm_num)
  exact h

end IstioV2
